import Mathlib

/-!
Shallow embedding of `DispatcherCore` from
`src/quantum/impl/quantum_dispatcher_core_impl.h` (Bloomberg quantum).

The dispatcher owns a list of coroutine queues, a list of IO queues and a
single shared IO queue; it routes tasks, aggregates sizes / emptiness /
statistics, and implements a one-shot terminate.  C++ exceptions are embedded
as `Except Err`; an out-of-bounds `operator[]` access (which in C++ is
undefined behavior, not an exception) is embedded as the distinguished outcome
`Err.undefinedBehavior` so that the absence / presence of such accesses is
observable in the model.
-/

set_option autoImplicit false

namespace Quantum

/-- Outcomes of a C++ call in the model: an explicit `throw std::runtime_error(msg)`
(`runtimeError msg`), an `std::vector::at` failure (`outOfRange`), an allocation
failure from a negative count converted to `size_t` (`allocationFailure`), and an
out-of-bounds `operator[]` access, which C++ leaves undefined (`undefinedBehavior`). -/
inductive Err where
  | runtimeError (msg : String)
  | outOfRange
  | allocationFailure
  | undefinedBehavior
deriving DecidableEq, Repr

/-- Modelled from the spec: `QueueStatistics` is "an aggregable counter bag
(submitted/completed/shared counts etc.) supporting merge (`+=`/`+`) and reset";
its concrete class is not part of the source under verification, only its
value-type merge contract is used by `DispatcherCore`. -/
structure QueueStatistics where
  postedCount : Nat := 0
  completedCount : Nat := 0
  sharedCount : Nat := 0
deriving DecidableEq, Repr

instance : Add QueueStatistics :=
  ⟨fun a b =>
    { postedCount := a.postedCount + b.postedCount,
      completedCount := a.completedCount + b.completedCount,
      sharedCount := a.sharedCount + b.sharedCount }⟩

/-- Modelled from the spec: a task handle exposes `getQueueId`/`setQueueId` over one
integer domain holding the sentinels `Any = -2`, `All = -1` and concrete indices
`≥ 0`; the executable payload is opaque and irrelevant to the dispatcher. -/
structure Task where
  queueId : Int
deriving DecidableEq, Repr

namespace IQueue

/-- Sentinel queue id `IQueue::QueueId::Any = -2` (modelled from the spec). -/
def QueueIdAny : Int := -2

/-- Sentinel queue id `IQueue::QueueId::All = -1` (modelled from the spec). -/
def QueueIdAll : Int := -1

/-- `IQueue::QueueType`: the coroutine family, the IO family, or both. -/
inductive QueueType where
  | Coro
  | Io
  | All
deriving DecidableEq, Repr

end IQueue

/-- Modelled from the spec: the external queue collaborator contract — a queue holds
pending tasks and supports `enqueue`, `size`, `empty`, `stats`, `terminate`,
`signalEmptyCondition` and (coroutine queues) `pinToCore`.  Internal wait/wake
mechanics are out of scope; the model records the observable effects of each call
(`terminateCount` counts how many times `terminate()` was invoked on this queue). -/
structure Queue where
  tasks : List Task := []
  stats : QueueStatistics := {}
  terminateCount : Nat := 0
  emptyCond : Bool := true
  pinnedCore : Option Nat := none
deriving DecidableEq, Repr

namespace Queue

def size (q : Queue) : Nat := q.tasks.length

def empty (q : Queue) : Bool := q.tasks.isEmpty

def enqueue (q : Queue) (t : Task) : Queue := { q with tasks := q.tasks ++ [t] }

def terminate (q : Queue) : Queue := { q with terminateCount := q.terminateCount + 1 }

def signalEmptyCondition (q : Queue) (b : Bool) : Queue := { q with emptyCond := b }

def pinToCore (q : Queue) (i : Nat) : Queue := { q with pinnedCore := some i }

end Queue

/-- The dispatcher state: `_coroQueues`, `_sharedIoQueue`, `_ioQueues` and the
atomic one-shot `_terminated` flag. -/
structure DispatcherCore where
  coroQueues : List Queue
  sharedIoQueue : Queue
  ioQueues : List Queue
  terminated : Bool
deriving DecidableEq, Repr

/-- `std::vector::at(i)` with an `int` index: a negative index converts to a huge
`size_t`, so any index outside `[0, length)` raises `std::out_of_range`. -/
def listAt {α : Type} (l : List α) (i : Int) : Except Err α :=
  if h : 0 ≤ i ∧ i.toNat < l.length then .ok (l.get ⟨i.toNat, h.2⟩)
  else .error .outOfRange

/-- `std::vector::operator[](i)` with an `int` index: in bounds it reads the
element, out of bounds it is undefined behavior. -/
def listIx {α : Type} (l : List α) (i : Int) : Except Err α :=
  if h : 0 ≤ i ∧ i.toNat < l.length then .ok (l.get ⟨i.toNat, h.2⟩)
  else .error .undefinedBehavior

/-- Resolution of the `numCoroutineThreads` constructor argument used to size
`_coroQueues`: `-1` means `std::thread::hardware_concurrency()`; any other
negative value wraps around to an astronomically large `size_t`, whose vector
allocation fails. -/
def resolveCoroCount (hardwareConcurrency : Nat) (numCoroutineThreads : Int) : Except Err Nat :=
  if numCoroutineThreads = -1 then .ok hardwareConcurrency
  else if numCoroutineThreads < 0 then .error .allocationFailure
  else .ok numCoroutineThreads.toNat

/-- The pinning loop of the constructor: `for i in [0, n) : _coroQueues[i].pinToCore(i)`,
entered with running index `i`. -/
def pinAll : Nat → List Queue → List Queue
  | _, [] => []
  | i, q :: qs => q.pinToCore i :: pinAll (i + 1) qs

namespace DispatcherCore

/-- `DispatcherCore::DispatcherCore(numCoroutineThreads, numIoThreads,
pinCoroutineThreadsToCores)`, parameterized by the hardware-concurrency count the
standard library would report.  Builds the coroutine queues, the shared IO queue
and the IO queues, then optionally validates and performs core pinning. -/
def construct (hardwareConcurrency : Nat) (numCoroutineThreads : Int) (numIoThreads : Nat)
    (pinCoroutineThreadsToCores : Bool) : Except Err DispatcherCore := do
  let coroCount ← resolveCoroCount hardwareConcurrency numCoroutineThreads
  let base : DispatcherCore :=
    { coroQueues := List.replicate coroCount {},
      sharedIoQueue := {},
      ioQueues := List.replicate numIoThreads {},
      terminated := false }
  if pinCoroutineThreadsToCores then
    if base.coroQueues.length > hardwareConcurrency then
      .error (.runtimeError "Number of queues exceeds cores.")
    else
      .ok { base with coroQueues := pinAll 0 base.coroQueues }
  else
    .ok base

end DispatcherCore

/-- Observable shutdown events: `coro i` / `io i` records `terminate()` on the
i-th coroutine / IO queue, `shared` records it on the shared IO queue. -/
inductive TermEvent where
  | coro (i : Nat)
  | io (i : Nat)
  | shared
deriving DecidableEq, Repr

namespace DispatcherCore

/-- `DispatcherCore::terminate()`: test-and-set the `_terminated` flag; on the
first call terminate every coroutine queue, then every IO queue, then the shared
IO queue; later calls are no-ops.  The returned trace records each underlying
`terminate()` call in program order. -/
def terminateTr (d : DispatcherCore) : DispatcherCore × List TermEvent :=
  if d.terminated then (d, [])
  else
    ({ d with
        terminated := true,
        coroQueues := d.coroQueues.map Queue.terminate,
        ioQueues := d.ioQueues.map Queue.terminate,
        sharedIoQueue := d.sharedIoQueue.terminate },
     ((List.range d.coroQueues.length).map TermEvent.coro)
       ++ ((List.range d.ioQueues.length).map TermEvent.io)
       ++ [TermEvent.shared])

end DispatcherCore

/-- `n` successive calls of `terminate()`, with the concatenated event trace. -/
def terminateN (d : DispatcherCore) : Nat → DispatcherCore × List TermEvent
  | 0 => (d, [])
  | n + 1 =>
    let p := d.terminateTr
    let q := terminateN p.1 n
    (q.1, p.2 ++ q.2)

namespace DispatcherCore

/-- `DispatcherCore::coroSize(queueId)`. -/
def coroSize (d : DispatcherCore) (queueId : Int) : Except Err Nat :=
  if queueId = IQueue.QueueIdAll then
    .ok (d.coroQueues.foldl (fun acc q => acc + q.size) 0)
  else do
    let q ← listAt d.coroQueues queueId
    .ok q.size

/-- `DispatcherCore::coroEmpty(queueId)` (the early-return-false loop over the
coroutine queues is `List.all`). -/
def coroEmpty (d : DispatcherCore) (queueId : Int) : Except Err Bool :=
  if queueId = IQueue.QueueIdAll then
    .ok (d.coroQueues.all Queue.empty)
  else do
    let q ← listAt d.coroQueues queueId
    .ok q.empty

/-- `DispatcherCore::ioSize(queueId)`. -/
def ioSize (d : DispatcherCore) (queueId : Int) : Except Err Nat :=
  if queueId = IQueue.QueueIdAll then
    .ok (d.ioQueues.foldl (fun acc q => acc + q.size) 0 + d.sharedIoQueue.size)
  else if queueId = IQueue.QueueIdAny then
    .ok d.sharedIoQueue.size
  else do
    let q ← listAt d.ioQueues queueId
    .ok q.size

/-- `DispatcherCore::ioEmpty(queueId)`. -/
def ioEmpty (d : DispatcherCore) (queueId : Int) : Except Err Bool :=
  if queueId = IQueue.QueueIdAll then
    .ok (d.ioQueues.all Queue.empty && d.sharedIoQueue.empty)
  else if queueId = IQueue.QueueIdAny then
    .ok d.sharedIoQueue.empty
  else do
    let q ← listAt d.ioQueues queueId
    .ok q.empty

/-- `DispatcherCore::size(type, queueId)`. -/
def size (d : DispatcherCore) (type : IQueue.QueueType) (queueId : Int) : Except Err Nat :=
  match type with
  | .All =>
    if queueId ≠ IQueue.QueueIdAll then .error (.runtimeError "Cannot specify queue id")
    else do
      let a ← d.coroSize IQueue.QueueIdAll
      let b ← d.ioSize IQueue.QueueIdAll
      .ok (a + b)
  | .Coro => d.coroSize queueId
  | .Io => d.ioSize queueId

/-- `DispatcherCore::empty(type, queueId)`. -/
def empty (d : DispatcherCore) (type : IQueue.QueueType) (queueId : Int) : Except Err Bool :=
  match type with
  | .All =>
    if queueId ≠ IQueue.QueueIdAll then .error (.runtimeError "Cannot specify queue id")
    else do
      let a ← d.coroEmpty IQueue.QueueIdAll
      let b ← d.ioEmpty IQueue.QueueIdAll
      .ok (a && b)
  | .Coro => d.coroEmpty queueId
  | .Io => d.ioEmpty queueId

/-- `DispatcherCore::coroStats(queueId)`: aggregate over all coroutine queues for
`All`, otherwise validate `0 ≤ queueId < _coroQueues.size()` and read that queue. -/
def coroStats (d : DispatcherCore) (queueId : Int) : Except Err QueueStatistics :=
  if queueId = IQueue.QueueIdAll then
    .ok (d.coroQueues.foldl (fun acc q => acc + q.stats) {})
  else if queueId ≥ (d.coroQueues.length : Int) ∨ queueId < 0 then
    .error (.runtimeError "Invalid queue id")
  else do
    let q ← listIx d.coroQueues queueId
    .ok q.stats

/-- `DispatcherCore::ioStats(queueId)`: aggregate over all IO queues plus the shared
queue for `All`, the shared queue alone for `Any`; for a concrete id the source
validates the id against `_coroQueues.size()` (sic — not `_ioQueues.size()`)
before indexing `_ioQueues[queueId]`. -/
def ioStats (d : DispatcherCore) (queueId : Int) : Except Err QueueStatistics :=
  if queueId = IQueue.QueueIdAll then
    .ok (d.ioQueues.foldl (fun acc q => acc + q.stats) {} + d.sharedIoQueue.stats)
  else if queueId = IQueue.QueueIdAny then
    .ok d.sharedIoQueue.stats
  else if queueId ≥ (d.coroQueues.length : Int) ∨ queueId < 0 then
    .error (.runtimeError "Invalid queue id")
  else do
    let q ← listIx d.ioQueues queueId
    .ok q.stats

/-- `DispatcherCore::stats(type, queueId)`. -/
def stats (d : DispatcherCore) (type : IQueue.QueueType) (queueId : Int) :
    Except Err QueueStatistics :=
  match type with
  | .All =>
    if queueId ≠ IQueue.QueueIdAll then .error (.runtimeError "Cannot specify queue id")
    else do
      let a ← d.coroStats IQueue.QueueIdAll
      let b ← d.ioStats IQueue.QueueIdAll
      .ok (a + b)
  | .Coro => d.coroStats queueId
  | .Io => d.ioStats queueId

end DispatcherCore

/-- `queueSize < numTasks` where `numTasks` starts as `SIZE_MAX` (modelled as
`none`, larger than every observed queue size). -/
def ltOpt (a : Nat) : Option Nat → Bool
  | none => true
  | some b => decide (a < b)

/-- The load-balancing scan of `DispatcherCore::post`: walk the queue sizes with
running index `i`, best index `index` and best size `best`; update on a strict
decrease and break as soon as the best size reaches `0`. -/
def scanGo : List Nat → Nat → Nat → Option Nat → Nat
  | [], _, index, _ => index
  | s :: rest, i, index, best =>
    if ltOpt s best then
      if s = 0 then i else scanGo rest (i + 1) i (some s)
    else
      if best = some 0 then index else scanGo rest (i + 1) index best

/-- The index selected by the `Any`-routing scan of `DispatcherCore::post` over
the listed coroutine queue sizes. -/
def selectQueueIdx (sizes : List Nat) : Nat := scanGo sizes 0 0 none

namespace DispatcherCore

/-- The final statement of `DispatcherCore::post`:
`_coroQueues[task->getQueueId()].enqueue(task)` (unchecked `operator[]`). -/
def enqueueCoro (d : DispatcherCore) (t : Task) : Except Err (DispatcherCore × Option Task) :=
  if h : 0 ≤ t.queueId ∧ t.queueId.toNat < d.coroQueues.length then
    .ok ({ d with
            coroQueues := d.coroQueues.set t.queueId.toNat
              ((d.coroQueues.get ⟨t.queueId.toNat, h.2⟩).enqueue t) },
         some t)
  else
    .error .undefinedBehavior

/-- `DispatcherCore::post(task)`: null tasks are a no-op; `Any` is resolved by the
load-balancing scan and the task's queue id is overwritten with the selected
index; a non-`Any` id is only checked against `id ≥ _coroQueues.size()` before
the enqueue indexes `_coroQueues[id]`.  The returned task is the caller-visible
(shared) task handle after the call. -/
def post (d : DispatcherCore) (task : Option Task) : Except Err (DispatcherCore × Option Task) :=
  match task with
  | none => .ok (d, none)
  | some t =>
    if t.queueId = IQueue.QueueIdAny then
      let index := selectQueueIdx (d.coroQueues.map Queue.size)
      d.enqueueCoro { t with queueId := (index : Int) }
    else if t.queueId ≥ (d.coroQueues.length : Int) then
      .error (.runtimeError "Queue id out of bounds")
    else
      d.enqueueCoro t

/-- The concrete-id branch of `DispatcherCore::postAsyncIo`:
`_ioQueues[task->getQueueId()].enqueue(task)` (unchecked `operator[]`). -/
def enqueueIoAt (d : DispatcherCore) (t : Task) : Except Err (DispatcherCore × Option Task) :=
  if h : 0 ≤ t.queueId ∧ t.queueId.toNat < d.ioQueues.length then
    .ok ({ d with
            ioQueues := d.ioQueues.set t.queueId.toNat
              ((d.ioQueues.get ⟨t.queueId.toNat, h.2⟩).enqueue t) },
         some t)
  else
    .error .undefinedBehavior

/-- `DispatcherCore::postAsyncIo(task)`: null tasks are a no-op; an `Any` task is
enqueued on the shared IO queue (queue id left untouched) and every IO queue has
its empty condition signalled `false`; a non-`Any` id is only checked against
`id ≥ _ioQueues.size()` before the enqueue indexes `_ioQueues[id]`. -/
def postAsyncIo (d : DispatcherCore) (task : Option Task) :
    Except Err (DispatcherCore × Option Task) :=
  match task with
  | none => .ok (d, none)
  | some t =>
    if t.queueId = IQueue.QueueIdAny then
      .ok ({ d with
              sharedIoQueue := d.sharedIoQueue.enqueue t,
              ioQueues := d.ioQueues.map (fun q => q.signalEmptyCondition false) },
           some t)
    else if t.queueId ≥ (d.ioQueues.length : Int) then
      .error (.runtimeError "Queue id out of bounds")
    else
      d.enqueueIoAt t

end DispatcherCore

end Quantum

namespace Quantum

/-! ### Properties of the load-balancing scan -/

theorem scanGo_some_spec (rest : List Nat) : ∀ (i index b : Nat), b ≠ 0 →
    (scanGo rest i index (some b) = index ∧ ∀ x ∈ rest, b ≤ x)
    ∨ (∃ j, ∃ hj : j < rest.length,
        scanGo rest i index (some b) = i + j
        ∧ rest.get ⟨j, hj⟩ < b
        ∧ (∀ x ∈ rest, rest.get ⟨j, hj⟩ ≤ x)
        ∧ (∀ x ∈ rest.take j, rest.get ⟨j, hj⟩ < x)) := by
  induction rest with
  | nil =>
    intro i index b _
    left
    exact ⟨rfl, by simp⟩
  | cons s rest ih =>
    intro i index b hb
    by_cases hs : s < b
    · by_cases hz : s = 0
      · right
        subst hz
        refine ⟨0, Nat.succ_pos _, ?_, ?_, ?_, ?_⟩
        · simp [scanGo, ltOpt, hs]
        · simpa using hs
        · intro x hx
          simp
        · intro x hx
          simp at hx
      · have hrec : scanGo (s :: rest) i index (some b) = scanGo rest (i + 1) i (some s) := by
          simp [scanGo, ltOpt, hs, hz]
        rcases ih (i + 1) i s hz with ⟨heq, hle⟩ | ⟨j, hj, heq, hlt, hle, hstrict⟩
        · right
          refine ⟨0, Nat.succ_pos _, ?_, ?_, ?_, ?_⟩
          · rw [hrec, heq]
            omega
          · simpa using hs
          · intro x hx
            rcases List.mem_cons.mp hx with rfl | hx
            · simp
            · simpa using hle x hx
          · intro x hx
            simp at hx
        · right
          refine ⟨j + 1, Nat.succ_lt_succ hj, ?_, ?_, ?_, ?_⟩
          · rw [hrec, heq]
            omega
          · simpa using lt_trans hlt hs
          · intro x hx
            rcases List.mem_cons.mp hx with rfl | hx
            · simpa using le_of_lt hlt
            · simpa using hle x hx
          · intro x hx
            rw [List.take_succ_cons] at hx
            rcases List.mem_cons.mp hx with rfl | hx
            · simpa using hlt
            · simpa using hstrict x hx
    · have hbs : b ≤ s := Nat.le_of_not_lt hs
      have hrec : scanGo (s :: rest) i index (some b) = scanGo rest (i + 1) index (some b) := by
        simp [scanGo, ltOpt, hs, hb]
      rcases ih (i + 1) index b hb with ⟨heq, hle⟩ | ⟨j, hj, heq, hlt, hle, hstrict⟩
      · left
        refine ⟨by rw [hrec, heq], ?_⟩
        intro x hx
        rcases List.mem_cons.mp hx with rfl | hx
        · exact hbs
        · exact hle x hx
      · right
        refine ⟨j + 1, Nat.succ_lt_succ hj, ?_, ?_, ?_, ?_⟩
        · rw [hrec, heq]
          omega
        · simpa using hlt
        · intro x hx
          rcases List.mem_cons.mp hx with rfl | hx
          · simpa using le_of_lt (lt_of_lt_of_le hlt hbs)
          · simpa using hle x hx
        · intro x hx
          rw [List.take_succ_cons] at hx
          rcases List.mem_cons.mp hx with rfl | hx
          · simpa using lt_of_lt_of_le hlt hbs
          · simpa using hstrict x hx

theorem selectQueueIdx_spec (sizes : List Nat) (h : sizes ≠ []) :
    ∃ (j : Nat) (hj : j < sizes.length),
      selectQueueIdx sizes = j
      ∧ (∀ x ∈ sizes, sizes.get ⟨j, hj⟩ ≤ x)
      ∧ (∀ x ∈ sizes.take j, sizes.get ⟨j, hj⟩ < x) := by
  match sizes, h with
  | s :: rest, _ =>
    by_cases hz : s = 0
    · refine ⟨0, Nat.succ_pos _, ?_, ?_, ?_⟩
      · subst hz
        simp [selectQueueIdx, scanGo, ltOpt]
      · intro x hx
        subst hz
        simp
      · intro x hx
        simp at hx
    · have hsel : selectQueueIdx (s :: rest) = scanGo rest 1 0 (some s) := by
        simp [selectQueueIdx, scanGo, ltOpt, hz]
      rcases scanGo_some_spec rest 1 0 s hz with ⟨heq, hle⟩ | ⟨j, hj, heq, hlt, hle, hstrict⟩
      · refine ⟨0, Nat.succ_pos _, by rw [hsel, heq], ?_, ?_⟩
        · intro x hx
          rcases List.mem_cons.mp hx with rfl | hx
          · simp
          · simpa using hle x hx
        · intro x hx
          simp at hx
      · refine ⟨j + 1, Nat.succ_lt_succ hj, ?_, ?_, ?_⟩
        · rw [hsel, heq]
          omega
        · intro x hx
          rcases List.mem_cons.mp hx with rfl | hx
          · simpa using le_of_lt hlt
          · simpa using hle x hx
        · intro x hx
          rw [List.take_succ_cons] at hx
          rcases List.mem_cons.mp hx with rfl | hx
          · simpa using hlt
          · simpa using hstrict x hx

end Quantum

namespace Quantum

/-! ### Sample dispatcher states used by the witnesses -/

/-- A filler task used to give sample queues a definite length. -/
def fillerTask : Task := { queueId := 0 }

/-- A queue holding `n` pending tasks. -/
def queueOfSize (n : Nat) : Queue := { tasks := List.replicate n fillerTask }

/-- A task submitted with queue id `Any`. -/
def anyTask : Task := { queueId := IQueue.QueueIdAny }

/-- Four coroutine queues of sizes `[3, 1, 1, 5]`, no IO queues. -/
def balanceCore : DispatcherCore :=
  { coroQueues := [queueOfSize 3, queueOfSize 1, queueOfSize 1, queueOfSize 5],
    sharedIoQueue := {},
    ioQueues := [],
    terminated := false }

/-- C1: for every non-null task posted with queue id `Any`, `post` scans the
coroutine queues and selects the earliest queue of strictly minimum observed size
(the short-circuit on the first empty queue never changes this winner), overwrites
the task's queue id with the winning index, and enqueues the rewritten task on that
queue; with sizes `[3, 1, 1, 5]` the winner is index 1, and with every queue empty
it is index 0. -/
theorem C1_post_any_load_balances (d : DispatcherCore) (t : Task)
    (hAny : t.queueId = IQueue.QueueIdAny) (hne : d.coroQueues ≠ []) :
    ∃ (idx : Nat) (hidx : idx < d.coroQueues.length),
      d.post (some t) = .ok
        ({ d with coroQueues := d.coroQueues.set idx ((d.coroQueues.get ⟨idx, hidx⟩).enqueue { t with queueId := (idx : Int) }) },
         some { t with queueId := (idx : Int) })
      ∧ (∀ q ∈ d.coroQueues, (d.coroQueues.get ⟨idx, hidx⟩).size ≤ q.size)
      ∧ (∀ q ∈ d.coroQueues.take idx, (d.coroQueues.get ⟨idx, hidx⟩).size < q.size)
      ∧ (d.coroQueues.map Queue.size = [3, 1, 1, 5] → idx = 1)
      ∧ ((∀ q ∈ d.coroQueues, q.size = 0) → idx = 0) := by
  have hne' : d.coroQueues.map Queue.size ≠ [] := by simpa using hne
  obtain ⟨j, hj, hsel, hle, hstrict⟩ := selectQueueIdx_spec (d.coroQueues.map Queue.size) hne'
  have hjlen : j < d.coroQueues.length := by simpa using hj
  refine ⟨j, hjlen, ?_, ?_, ?_, ?_, ?_⟩
  · simp only [DispatcherCore.post, hAny, if_pos, hsel]
    simp [DispatcherCore.enqueueCoro, hjlen]
  · intro q hq
    have hmem : q.size ∈ d.coroQueues.map Queue.size := List.mem_map_of_mem Queue.size hq
    have := hle q.size hmem
    simpa [List.get_eq_getElem, List.getElem_map] using this
  · intro q hq
    have hmem : q.size ∈ (d.coroQueues.map Queue.size).take j := by
      rw [← List.map_take]
      exact List.mem_map_of_mem Queue.size hq
    have := hstrict q.size hmem
    simpa [List.get_eq_getElem, List.getElem_map] using this
  · intro hm
    rw [hm] at hsel
    have h1 : selectQueueIdx [3, 1, 1, 5] = 1 := by decide
    omega
  · intro hz
    rcases hcq : d.coroQueues with _ | ⟨q0, qs⟩
    · exact absurd hcq hne
    · have hz0 : q0.size = 0 := hz q0 (by rw [hcq]; exact List.mem_cons_self _ _)
      rw [hcq] at hsel
      simp only [List.map_cons, hz0] at hsel
      have h0 : selectQueueIdx (0 :: qs.map Queue.size) = 0 := by
        simp [selectQueueIdx, scanGo, ltOpt]
      omega

/-- Witness for C1: on the `[3, 1, 1, 5]` core an `Any` task is routed to queue 1. -/
theorem C1_witness :
    balanceCore.post (some anyTask)
      = .ok ({ balanceCore with coroQueues := balanceCore.coroQueues.set 1 ((balanceCore.coroQueues.get ⟨1, by decide⟩).enqueue { queueId := 1 }) },
             some { queueId := 1 }) := by
  obtain ⟨idx, hidx, heq, -, -, hex, -⟩ :=
    C1_post_any_load_balances balanceCore anyTask rfl (by decide)
  have h1 : idx = 1 := hex (by decide)
  subst h1
  exact heq

end Quantum

namespace Quantum

/-! ### One-shot termination -/

theorem terminateTr_terminated (d : DispatcherCore) : (d.terminateTr).1.terminated = true := by
  by_cases h : d.terminated <;> simp [DispatcherCore.terminateTr, h]

theorem terminateN_of_terminated (d : DispatcherCore) (h : d.terminated = true) :
    ∀ m, terminateN d m = (d, []) := by
  intro m
  induction m with
  | zero => rfl
  | succ m ih => simp [terminateN, DispatcherCore.terminateTr, h, ih]

theorem termEvent_trace_nodup (a b : Nat) :
    (((List.range a).map TermEvent.coro) ++ ((List.range b).map TermEvent.io)
      ++ [TermEvent.shared]).Nodup := by
  have hc : ((List.range a).map TermEvent.coro).Nodup := by
    refine List.Nodup.map ?_ (List.nodup_range a)
    intro i j hij
    injection hij
  have hi : ((List.range b).map TermEvent.io).Nodup := by
    refine List.Nodup.map ?_ (List.nodup_range b)
    intro i j hij
    injection hij
  rw [List.nodup_append]
  refine ⟨?_, List.nodup_singleton _, ?_⟩
  · rw [List.nodup_append]
    refine ⟨hc, hi, ?_⟩
    intro x hx hy
    obtain ⟨i, -, rfl⟩ := List.mem_map.mp hx
    obtain ⟨j, -, hji⟩ := List.mem_map.mp hy
    exact TermEvent.noConfusion hji
  · intro x hx hy
    rcases List.mem_append.mp hx with hx | hx
    · obtain ⟨i, -, rfl⟩ := List.mem_map.mp hx
      simp at hy
    · obtain ⟨i, -, rfl⟩ := List.mem_map.mp hx
      simp at hy

/-- C3: `terminate()` is idempotent and one-shot: over any number `n ≥ 1` of calls
the full trace of underlying `terminate()` calls is exactly one shutdown sequence —
every coroutine queue in index order, then every IO queue, then the shared IO
queue — no underlying queue is terminated more than once, the resulting state is
that of the first call, and any further calls are no-ops with an empty trace. -/
theorem C3_terminate_one_shot (d : DispatcherCore) (n : Nat) (hn : 1 ≤ n)
    (hterm : d.terminated = false) :
    (terminateN d n).2
      = ((List.range d.coroQueues.length).map TermEvent.coro)
        ++ ((List.range d.ioQueues.length).map TermEvent.io) ++ [TermEvent.shared]
    ∧ (∀ e : TermEvent, (terminateN d n).2.count e ≤ 1)
    ∧ (terminateN d n).1 = (d.terminateTr).1
    ∧ (∀ m : Nat, terminateN (terminateN d n).1 m = ((terminateN d n).1, [])) := by
  obtain ⟨k, rfl⟩ : ∃ k, n = k + 1 := ⟨n - 1, by omega⟩
  have h1 : (d.terminateTr).1.terminated = true := terminateTr_terminated d
  have hq : terminateN (d.terminateTr).1 k = ((d.terminateTr).1, []) :=
    terminateN_of_terminated _ h1 k
  have hN : terminateN d (k + 1) = ((d.terminateTr).1, (d.terminateTr).2) := by
    simp [terminateN, hq]
  have htr : (d.terminateTr).2
      = ((List.range d.coroQueues.length).map TermEvent.coro)
        ++ ((List.range d.ioQueues.length).map TermEvent.io) ++ [TermEvent.shared] := by
    simp [DispatcherCore.terminateTr, hterm]
  refine ⟨?_, ?_, ?_, ?_⟩
  · rw [hN, htr]
  · intro e
    rw [hN, htr]
    exact List.nodup_iff_count_le_one.mp (termEvent_trace_nodup _ _) e
  · rw [hN]
  · intro m
    rw [hN]
    exact terminateN_of_terminated _ h1 m

/-- A dispatcher with one coroutine queue and one IO queue. -/
def smallCore : DispatcherCore :=
  { coroQueues := [{}], sharedIoQueue := {}, ioQueues := [{}], terminated := false }

/-- Witness for C3: three calls on a live 1+1 dispatcher terminate each queue once,
coroutine queue first, then the IO queue, then the shared queue. -/
theorem C3_witness :
    (terminateN smallCore 3).2 = [TermEvent.coro 0, TermEvent.io 0, TermEvent.shared] := by
  have h := C3_terminate_one_shot smallCore 3 (by decide) rfl
  simpa using h.1

end Quantum

namespace Quantum

/-- A dispatcher with one coroutine queue and two IO queues. -/
def ioCore : DispatcherCore :=
  { coroQueues := [{}], sharedIoQueue := {}, ioQueues := [{}, {}], terminated := false }

/-- C4: a non-null IO task with queue id `Any` is enqueued on the shared IO queue,
every per-thread IO queue merely has its empty condition signalled `false` (its
pending tasks are untouched), and the task's queue id is not rewritten: the
caller-visible task still carries `Any`. -/
theorem C4_postAsyncIo_any (d : DispatcherCore) (t : Task)
    (hAny : t.queueId = IQueue.QueueIdAny) :
    d.postAsyncIo (some t)
      = .ok ({ d with sharedIoQueue := d.sharedIoQueue.enqueue t, ioQueues := d.ioQueues.map (fun q => q.signalEmptyCondition false) }, some t)
    ∧ (∀ q ∈ d.ioQueues, (q.signalEmptyCondition false).tasks = q.tasks)
    ∧ t.queueId = IQueue.QueueIdAny := by
  refine ⟨?_, ?_, hAny⟩
  · simp [DispatcherCore.postAsyncIo, hAny]
  · intro q hq
    rfl

/-- Witness for C4 on the 1+2 dispatcher. -/
theorem C4_witness :
    ioCore.postAsyncIo (some anyTask)
      = .ok ({ ioCore with sharedIoQueue := ioCore.sharedIoQueue.enqueue anyTask, ioQueues := ioCore.ioQueues.map (fun q => q.signalEmptyCondition false) }, some anyTask) :=
  (C4_postAsyncIo_any ioCore anyTask rfl).1

/-- C5: posting a task whose concrete (non-negative) queue id is at least the
coroutine-queue count fails with the out-of-range error before anything is
enqueued (the `Except` failure carries no new state), while a concrete id inside
`[0, count)` enqueues the task directly on that queue with its id unchanged. -/
theorem C5_post_concrete (d : DispatcherCore) (t : Task) (c : Nat)
    (hc : t.queueId = (c : Int)) :
    (d.coroQueues.length ≤ c →
      d.post (some t) = .error (.runtimeError "Queue id out of bounds"))
    ∧ (∀ hlt : c < d.coroQueues.length,
        d.post (some t) = .ok ({ d with coroQueues := d.coroQueues.set c ((d.coroQueues.get ⟨c, hlt⟩).enqueue t) }, some t)) := by
  have hne2 : ¬ t.queueId = IQueue.QueueIdAny := by
    rw [hc]
    simp only [IQueue.QueueIdAny]
    omega
  constructor
  · intro hge
    have hge2 : (d.coroQueues.length : Int) ≤ t.queueId := by
      rw [hc]
      exact_mod_cast hge
    simp [DispatcherCore.post, hne2, hge2]
  · intro hlt
    have hnge : ¬ (d.coroQueues.length : Int) ≤ t.queueId := by
      rw [hc]
      omega
    have h1 : ¬ ((c : Int) = IQueue.QueueIdAny) := by
      simp only [IQueue.QueueIdAny]
      omega
    have h2 : ¬ (d.coroQueues.length ≤ c) := by omega
    simp [DispatcherCore.post, hne2, hnge, DispatcherCore.enqueueCoro, hc, hlt, h1, h2]

/-- A dispatcher with four coroutine queues and no IO queues. -/
def fourCore : DispatcherCore :=
  { coroQueues := [{}, {}, {}, {}], sharedIoQueue := {}, ioQueues := [], terminated := false }

/-- Witness for C5: queue id 7 against 4 coroutine queues is rejected. -/
theorem C5_witness :
    fourCore.post (some { queueId := 7 }) = .error (.runtimeError "Queue id out of bounds") :=
  (C5_post_concrete fourCore { queueId := 7 } 7 rfl).1 (by decide)

/-- C6: in any fixed state the `All/All` aggregates decompose into the family
aggregates — `size(All, All)` is the sum of the Coro and IO aggregate sizes and
`empty(All, All)` their conjunction — where the Coro aggregate ranges over every
coroutine queue and the IO aggregate over every IO queue plus the shared IO queue. -/
theorem C6_all_aggregates (d : DispatcherCore) :
    (∃ a b, d.size .Coro IQueue.QueueIdAll = .ok a
      ∧ d.size .Io IQueue.QueueIdAll = .ok b
      ∧ d.size .All IQueue.QueueIdAll = .ok (a + b))
    ∧ (∃ p q, d.empty .Coro IQueue.QueueIdAll = .ok p
      ∧ d.empty .Io IQueue.QueueIdAll = .ok q
      ∧ d.empty .All IQueue.QueueIdAll = .ok (p && q))
    ∧ d.size .Coro IQueue.QueueIdAll = .ok (d.coroQueues.foldl (fun acc q => acc + q.size) 0)
    ∧ d.size .Io IQueue.QueueIdAll = .ok (d.ioQueues.foldl (fun acc q => acc + q.size) 0 + d.sharedIoQueue.size)
    ∧ d.empty .Coro IQueue.QueueIdAll = .ok (d.coroQueues.all Queue.empty)
    ∧ d.empty .Io IQueue.QueueIdAll = .ok (d.ioQueues.all Queue.empty && d.sharedIoQueue.empty) := by
  refine ⟨⟨_, _, rfl, rfl, rfl⟩, ⟨_, _, rfl, rfl, rfl⟩, rfl, rfl, rfl, rfl⟩

/-- C7: any aggregate query (`size`, `empty`, `stats`) with `type = All` and a
queue id other than `All` fails with the invalid-argument error (queries are pure,
so no state is touched), while with queue id `All` all three succeed. -/
theorem C7_type_all_requires_id_all (d : DispatcherCore) (queueId : Int)
    (h : queueId ≠ IQueue.QueueIdAll) :
    d.size .All queueId = .error (.runtimeError "Cannot specify queue id")
    ∧ d.empty .All queueId = .error (.runtimeError "Cannot specify queue id")
    ∧ d.stats .All queueId = .error (.runtimeError "Cannot specify queue id")
    ∧ (∃ v, d.size .All IQueue.QueueIdAll = .ok v)
    ∧ (∃ v, d.empty .All IQueue.QueueIdAll = .ok v)
    ∧ (∃ v, d.stats .All IQueue.QueueIdAll = .ok v) := by
  refine ⟨?_, ?_, ?_, ⟨_, rfl⟩, ⟨_, rfl⟩, ⟨_, rfl⟩⟩
  · simp [DispatcherCore.size, h]
  · simp [DispatcherCore.empty, h]
  · simp [DispatcherCore.stats, h]

/-- Witness for C7: a concrete id with `type = All` is rejected on the 1+1 core. -/
theorem C7_witness :
    smallCore.size .All 0 = .error (.runtimeError "Cannot specify queue id") :=
  (C7_type_all_requires_id_all smallCore 0 (by decide)).1

/-- C9: a null task is a deliberate no-op for both `post` and `postAsyncIo`: no
error is raised and the dispatcher state (queues and statistics) is returned
unchanged. -/
theorem C9_null_task_noop (d : DispatcherCore) :
    d.post none = .ok (d, none) ∧ d.postAsyncIo none = .ok (d, none) :=
  ⟨rfl, rfl⟩

/-- A dispatcher with 1 coroutine queue and 3 IO queues (as built by
`construct 8 1 3 false`). -/
def statsBugCore : DispatcherCore :=
  { coroQueues := [{}], sharedIoQueue := {}, ioQueues := [{}, {}, {}], terminated := false }

/-- A dispatcher with 3 coroutine queues and 1 IO queue. -/
def statsBugCore2 : DispatcherCore :=
  { coroQueues := [{}, {}, {}], sharedIoQueue := {}, ioQueues := [{}], terminated := false }

/-- C2 (code bug): `ioStats` validates a concrete id against the *coroutine*-queue
count instead of the IO-queue count.  With 1 coroutine queue and 3 IO queues the
valid IO id 2 is rejected with the out-of-range error even though `ioSize 2`
succeeds on the very same state; conversely with 3 coroutine queues and 1 IO queue
the invalid IO id 2 passes the check and the code indexes `_ioQueues[2]` out of
bounds (undefined behavior). -/
theorem C2_ioStats_checks_wrong_count :
    DispatcherCore.construct 8 1 3 false = .ok statsBugCore
    ∧ statsBugCore.ioQueues.length = 3
    ∧ statsBugCore.ioStats 2 = .error (.runtimeError "Invalid queue id")
    ∧ statsBugCore.ioSize 2 = .ok 0
    ∧ statsBugCore2.ioQueues.length = 1
    ∧ statsBugCore2.ioStats 2 = .error .undefinedBehavior :=
  ⟨rfl, rfl, rfl, rfl, rfl, rfl⟩

/-- A dispatcher with two coroutine queues and two IO queues. -/
def negIdCore : DispatcherCore :=
  { coroQueues := [{}, {}], sharedIoQueue := {}, ioQueues := [{}, {}], terminated := false }

/-- C10 (code bug): the bounds validation of `post` and `postAsyncIo` only tests
`id ≥ count`, so the negative id `All = -1` passes validation and the enqueue
indexes the queue array at `-1` — an out-of-bounds access (undefined behavior)
reached without any error being raised first. -/
theorem C10_negative_id_unchecked :
    negIdCore.post (some { queueId := IQueue.QueueIdAll }) = .error .undefinedBehavior
    ∧ negIdCore.postAsyncIo (some { queueId := IQueue.QueueIdAll }) = .error .undefinedBehavior :=
  ⟨rfl, rfl⟩

end Quantum

namespace Quantum

/-! ### Construction -/

theorem pinAll_length (qs : List Queue) : ∀ i, (pinAll i qs).length = qs.length := by
  induction qs with
  | nil => intro i; rfl
  | cons q qs ih => intro i; simp [pinAll, ih]

theorem pinAll_get (qs : List Queue) :
    ∀ (i j : Nat) (hj : j < qs.length) (hj2 : j < (pinAll i qs).length),
      (pinAll i qs).get ⟨j, hj2⟩ = (qs.get ⟨j, hj⟩).pinToCore (i + j) := by
  induction qs with
  | nil =>
    intro i j hj hj2
    exact absurd hj (by simp)
  | cons q qs ih =>
    intro i j hj hj2
    cases j with
    | zero => simp [pinAll]
    | succ j' =>
      have hj' : j' < qs.length := by simpa using hj
      have hj2' : j' < (pinAll (i + 1) qs).length := by
        rw [pinAll_length]
        exact hj'
      simp only [pinAll, List.get_cons_succ]
      rw [ih (i + 1) j' hj' hj2']
      congr 1
      omega


theorem construct_resolved (hardwareConcurrency : Nat) (n : Int) (numIoThreads : Nat)
    (pin : Bool) (cnt : Nat)
    (hres : resolveCoroCount hardwareConcurrency n = .ok cnt) :
    DispatcherCore.construct hardwareConcurrency n numIoThreads pin
      = (if pin then
          if (List.replicate cnt ({} : Queue)).length > hardwareConcurrency then
            .error (.runtimeError "Number of queues exceeds cores.")
          else
            .ok { coroQueues := pinAll 0 (List.replicate cnt {}), sharedIoQueue := {}, ioQueues := List.replicate numIoThreads {}, terminated := false }
        else
          .ok { coroQueues := List.replicate cnt {}, sharedIoQueue := {}, ioQueues := List.replicate numIoThreads {}, terminated := false }) := by
  unfold DispatcherCore.construct
  rw [hres]
  rfl

/-- C8: the constructor sizes `_coroQueues` by `hardware_concurrency()` when
`numCoroutineThreads = -1` and by `numCoroutineThreads` otherwise; without pinning
construction (for valid inputs) never fails whatever the hardware unit count;
with pinning it fails with the configuration error exactly when the resolved
queue count exceeds the hardware units, and otherwise pins queue `i` to core `i`
for every `i`. -/
theorem C8_construct (hardwareConcurrency : Nat) (n : Int) (numIoThreads : Nat)
    (hn : n = -1 ∨ 0 ≤ n) :
    ∃ cnt : Nat,
      resolveCoroCount hardwareConcurrency n = .ok cnt
      ∧ (n = -1 → cnt = hardwareConcurrency)
      ∧ (0 ≤ n → (cnt : Int) = n)
      ∧ (∃ d, DispatcherCore.construct hardwareConcurrency n numIoThreads false = .ok d
          ∧ d.coroQueues.length = cnt ∧ d.ioQueues.length = numIoThreads)
      ∧ (cnt ≤ hardwareConcurrency →
          ∃ d, DispatcherCore.construct hardwareConcurrency n numIoThreads true = .ok d
            ∧ d.coroQueues.length = cnt
            ∧ ∀ i, ∀ hi : i < d.coroQueues.length, (d.coroQueues.get ⟨i, hi⟩).pinnedCore = some i)
      ∧ (hardwareConcurrency < cnt →
          DispatcherCore.construct hardwareConcurrency n numIoThreads true
            = .error (.runtimeError "Number of queues exceeds cores.")) := by
  have hneg : n = -1 ∨ (n ≠ -1 ∧ ¬ n < 0) := by omega
  have hres : resolveCoroCount hardwareConcurrency n
      = .ok (if n = -1 then hardwareConcurrency else n.toNat) := by
    rcases hneg with rfl | ⟨h1, h2⟩
    · simp [resolveCoroCount]
    · simp [resolveCoroCount, h1, h2]
  refine ⟨if n = -1 then hardwareConcurrency else n.toNat, hres, ?_, ?_, ?_, ?_, ?_⟩
  · intro h
    simp [h]
  · intro h
    rcases hneg with rfl | ⟨h1, h2⟩
    · exact absurd h (by decide)
    · simp only [if_neg h1]
      omega
  · refine ⟨{ coroQueues := List.replicate (if n = -1 then hardwareConcurrency else n.toNat) {}, sharedIoQueue := {}, ioQueues := List.replicate numIoThreads {}, terminated := false }, ?_, by simp, by simp⟩
    rw [construct_resolved _ _ _ false _ hres]
    rfl
  · intro hle
    have hngt : ¬ ((List.replicate (if n = -1 then hardwareConcurrency else n.toNat) ({} : Queue)).length > hardwareConcurrency) := by
      simp only [List.length_replicate, gt_iff_lt, not_lt]
      exact hle
    refine ⟨{ coroQueues := pinAll 0 (List.replicate (if n = -1 then hardwareConcurrency else n.toNat) {}), sharedIoQueue := {}, ioQueues := List.replicate numIoThreads {}, terminated := false }, ?_, ?_, ?_⟩
    · rw [construct_resolved _ _ _ true _ hres]
      simp [hngt]
      exact hle
    · rw [pinAll_length]
      simp
    · intro i hi
      have hi0 : i < (List.replicate (if n = -1 then hardwareConcurrency else n.toNat) ({} : Queue)).length := by
        have h := hi
        rwa [pinAll_length] at h
      rw [pinAll_get _ 0 i hi0 hi]
      rw [List.get_replicate]
      simp [Queue.pinToCore]
  · intro hgt
    rcases hneg with rfl | ⟨h1, h2⟩
    · simp at hgt
    · rw [construct_resolved _ _ _ true _ hres]
      have hgt2 : (List.replicate (if n = -1 then hardwareConcurrency else n.toNat) ({} : Queue)).length > hardwareConcurrency := by
        simp only [List.length_replicate, gt_iff_lt]
        exact hgt
      simp [hgt2]
      exact hgt

/-- Witness for C8: with 1 hardware unit, 3 requested coroutine threads and
pinning on, construction fails with the configuration error. -/
theorem C8_witness :
    DispatcherCore.construct 1 3 0 true = .error (.runtimeError "Number of queues exceeds cores.") := by
  obtain ⟨cnt, hres, -, -, -, -, herr⟩ := C8_construct 1 3 0 (Or.inr (by decide))
  have h3 : resolveCoroCount 1 3 = .ok 3 := rfl
  rw [h3] at hres
  have hcnt : cnt = 3 := by
    injection hres with h
    omega
  exact herr (by omega)

end Quantum
